import Mathlib

/-!
Shallow embedding of the terrain asset pipeline
(`scripts/terrain/build_heightmap.py` and
`scripts/terrain/build_terrain_mesh.py`) and proofs about it.

Numeric conventions of the embedding:
* Python floats are modelled by exact rationals (`ℚ`).
* A float that may be NaN (an elevation sample read from a raster) is
  modelled by `Option ℚ`, with `none` standing for NaN.
* The transcendental values the scripts obtain from `math.cos` /
  `math.pi` are not rational; every definition that needs one takes it
  as an explicit parameter (`coslat` for `cos(radians lat)`, `mdeg` for
  `(pi / 180) * EARTH_RADIUS`).  All properties proved below hold for
  every value of those parameters, so nothing is lost by abstracting
  them.
* `numpy` arrays are modelled by total functions from indices to
  samples together with explicit width/height fields; the pixel-copy
  loops become functional updates on those functions.
-/

/-- Conversion constant `METERS_TO_FEET = 3.28084` from
`build_terrain_mesh.py` (the same value appears as `FEET_PER_METER` in
`build_heightmap.py`). -/
def METERS_TO_FEET : ℚ := 3.28084

/-- A geographic bounding box `(min_lon, min_lat, max_lon, max_lat)`,
the tuple shape used throughout `build_heightmap.py`. -/
structure GeoBounds where
  min_lon : ℚ
  min_lat : ℚ
  max_lon : ℚ
  max_lat : ℚ
deriving DecidableEq, Repr

/-- One loaded raster tile: the shape of its sample array
(`data.shape = (theight, twidth)`), its samples (`none` = NaN), and the
georeferencing fields read in `Tile.load`. -/
structure Tile where
  theight : ℕ
  twidth : ℕ
  tdata : ℕ → ℕ → Option ℚ
  origin_lon : ℚ
  origin_lat : ℚ
  scale_lon : ℚ
  scale_lat : ℚ

/-- Model of `Tile.bounds` from `build_heightmap.py`: the tile's bounding box is
derived from origin, scale and array shape. -/
def Tile.bounds (t : Tile) : GeoBounds :=
  { min_lon := t.origin_lon
    min_lat := t.origin_lat - t.theight * t.scale_lat
    max_lon := t.origin_lon + t.twidth * t.scale_lon
    max_lat := t.origin_lat }

/-- Model of `compute_union_bounds` from `build_heightmap.py`: componentwise
min/max over a nonempty tile list (first tile plus the rest). -/
def compute_union_bounds (t0 : Tile) (rest : List Tile) : GeoBounds :=
  rest.foldl
    (fun b t =>
      { min_lon := min b.min_lon t.bounds.min_lon
        min_lat := min b.min_lat t.bounds.min_lat
        max_lon := max b.max_lon t.bounds.max_lon
        max_lat := max b.max_lat t.bounds.max_lat })
    t0.bounds

/-- Model of `clamp_bounds` from `build_heightmap.py`.  `coslat` stands for
`math.cos(math.radians(center_lat))`, passed in as a parameter. -/
def clamp_bounds (b : GeoBounds) (center_lat center_lon radius_miles coslat : ℚ) :
    GeoBounds :=
  let dlat := radius_miles / 69
  let dlon := radius_miles / (69 * coslat)
  { min_lon := max b.min_lon (center_lon - dlon)
    min_lat := max b.min_lat (center_lat - dlat)
    max_lon := min b.max_lon (center_lon + dlon)
    max_lat := min b.max_lat (center_lat + dlat) }

/-- C3: for every input bounds box, center and radius, the box returned
by `clamp_bounds` is componentwise contained both in the input
(tile-union) box and in the box `[center_lon - dlon, center_lon + dlon]
× [center_lat - dlat, center_lat + dlat]`, where `dlat = radius/69` and
`dlon = radius/(69 * cos(center_lat))`; the result is never expanded
beyond the union box. -/
theorem clamp_bounds_contained (b : GeoBounds)
    (center_lat center_lon radius_miles coslat : ℚ) :
    let res := clamp_bounds b center_lat center_lon radius_miles coslat
    let dlat := radius_miles / 69
    let dlon := radius_miles / (69 * coslat)
    b.min_lon ≤ res.min_lon ∧ center_lon - dlon ≤ res.min_lon ∧
    res.max_lon ≤ b.max_lon ∧ res.max_lon ≤ center_lon + dlon ∧
    b.min_lat ≤ res.min_lat ∧ center_lat - dlat ≤ res.min_lat ∧
    res.max_lat ≤ b.max_lat ∧ res.max_lat ≤ center_lat + dlat := by
  refine ⟨le_max_left _ _, le_max_right _ _, min_le_left _ _, min_le_right _ _,
    le_max_left _ _, le_max_right _ _, min_le_left _ _, min_le_right _ _⟩

/-- Python's `round` (as applied through `int(round(x))` in
`build_heightmap.py`): round half to even. -/
def pyRound (q : ℚ) : ℤ :=
  let f := ⌊q⌋
  if q - f < 1/2 then f
  else if 1/2 < q - f then f + 1
  else if f % 2 = 0 then f else f + 1

/-- Target-grid width from `main` of `build_heightmap.py`:
`int(math.ceil((max_lon - min_lon) / scale_lon))`. -/
def gridWidth (clip : GeoBounds) (sl : ℚ) : ℤ := ⌈(clip.max_lon - clip.min_lon) / sl⌉

/-- Target-grid height from `main` of `build_heightmap.py`:
`int(math.ceil((max_lat - min_lat) / scale_lat))`. -/
def gridHeight (clip : GeoBounds) (sa : ℚ) : ℤ := ⌈(clip.max_lat - clip.min_lat) / sa⌉

/-- Model of `origin_col = int(round((tile.origin_lon - min_lon) / scale_lon))`. -/
def tileOriginCol (clip : GeoBounds) (sl : ℚ) (t : Tile) : ℤ :=
  pyRound ((t.origin_lon - clip.min_lon) / sl)

/-- Model of `origin_row = int(round((max_lat - tile.origin_lat) / scale_lat))`. -/
def tileOriginRow (clip : GeoBounds) (sa : ℚ) (t : Tile) : ℤ :=
  pyRound ((clip.max_lat - t.origin_lat) / sa)

/-- The `continue` test of the compositing loop: a tile is skipped when
its bounding box misses the clip bounds on either axis. -/
def tileSkipped (clip : GeoBounds) (t : Tile) : Prop :=
  t.bounds.max_lon < clip.min_lon ∨ t.bounds.min_lon > clip.max_lon ∨
  t.bounds.max_lat < clip.min_lat ∨ t.bounds.min_lat > clip.max_lat

instance (clip : GeoBounds) (t : Tile) : Decidable (tileSkipped clip t) := by
  unfold tileSkipped; infer_instance

/-- A target-grid cell `(r, c)` lies in the sub-array the compositing
loop copies out of tile `t`: the tile is not skipped and `(r, c)` is in
`[row_start, row_end) × [col_start, col_end)` as computed in `main` of
`build_heightmap.py`. -/
def covers (clip : GeoBounds) (W H : ℤ) (sl sa : ℚ) (t : Tile) (r c : ℤ) : Prop :=
  ¬ tileSkipped clip t ∧
  max 0 (tileOriginRow clip sa t) ≤ r ∧
  r < min H (tileOriginRow clip sa t + t.theight) ∧
  max 0 (tileOriginCol clip sl t) ≤ c ∧
  c < min W (tileOriginCol clip sl t + t.twidth)

instance (clip : GeoBounds) (W H : ℤ) (sl sa : ℚ) (t : Tile) (r c : ℤ) :
    Decidable (covers clip W H sl sa t r c) := by
  unfold covers; infer_instance

/-- The tile sample a covered cell `(r, c)` receives:
`tile_data[r - origin_row, c - origin_col]` (the source index
`src_row_start + (r - row_start)` always simplifies to this). -/
def tileSample (clip : GeoBounds) (sl sa : ℚ) (t : Tile) (r c : ℤ) : Option ℚ :=
  t.tdata (r - tileOriginRow clip sa t).toNat (c - tileOriginCol clip sl t).toNat

/-- One iteration of the compositing loop: the slice assignment
`grid[row_start:row_end, col_start:col_end] = tile_data[...]` as a
functional update of the target grid. -/
def compositeTile (clip : GeoBounds) (W H : ℤ) (sl sa : ℚ)
    (g : ℤ → ℤ → Option ℚ) (t : Tile) : ℤ → ℤ → Option ℚ :=
  fun r c =>
    if covers clip W H sl sa t r c then tileSample clip sl sa t r c else g r c

/-- The whole compositing loop of `main` in `build_heightmap.py`: start
from the all-NaN grid (`np.full(..., np.nan)`) and fold the tiles in
processing order. -/
def compositeGrid (clip : GeoBounds) (W H : ℤ) (sl sa : ℚ)
    (tiles : List Tile) : ℤ → ℤ → Option ℚ :=
  tiles.foldl (compositeTile clip W H sl sa) (fun _ _ => none)

/-- The compositing stage at the grid dimensions `main` derives from the
clip bounds and the first tile's pixel scale. -/
def mosaic (clip : GeoBounds) (sl sa : ℚ) (tiles : List Tile) :
    ℤ → ℤ → Option ℚ :=
  compositeGrid clip (gridWidth clip sl) (gridHeight clip sa) sl sa tiles

lemma compositeGrid_not_covered (clip : GeoBounds) (W H : ℤ) (sl sa : ℚ)
    (tiles : List Tile) (g : ℤ → ℤ → Option ℚ) (r c : ℤ)
    (h : ∀ t ∈ tiles, ¬ covers clip W H sl sa t r c) :
    tiles.foldl (compositeTile clip W H sl sa) g r c = g r c := by
  induction tiles generalizing g with
  | nil => rfl
  | cons t ts ih =>
      have hts : ∀ t' ∈ ts, ¬ covers clip W H sl sa t' r c := by
        intro t' ht'; exact h t' (List.mem_cons_of_mem _ ht')
      have ht : ¬ covers clip W H sl sa t r c := h t (List.mem_cons_self _ _)
      calc (t :: ts).foldl (compositeTile clip W H sl sa) g r c
          = ts.foldl (compositeTile clip W H sl sa)
              (compositeTile clip W H sl sa g t) r c := rfl
        _ = compositeTile clip W H sl sa g t r c := ih _ hts
        _ = g r c := by simp [compositeTile, ht]

/-- C2: after the compositing loop finishes, every cell of the target
grid that lies inside no processed tile's copied sub-array still holds
the NaN the grid was initialized with (`none` in this embedding) — the
grid is filled with NaN up front and only tile-covered cells are ever
overwritten, so no other sentinel value can appear in uncovered
cells. -/
theorem uncovered_cells_are_nan (clip : GeoBounds) (W H : ℤ) (sl sa : ℚ)
    (tiles : List Tile) (r c : ℤ)
    (h : ∀ t ∈ tiles, ¬ covers clip W H sl sa t r c) :
    compositeGrid clip W H sl sa tiles r c = none :=
  compositeGrid_not_covered clip W H sl sa tiles _ r c h

/-- A tile wholly north-east of the sample clip box, used to instantiate
hypotheses about the compositor on concrete data. -/
def tFar : Tile :=
  { theight := 2, twidth := 2, tdata := fun _ _ => some 1
    origin_lon := 50, origin_lat := 60, scale_lon := 1, scale_lat := 1 }

/-- Witness for `uncovered_cells_are_nan` at a concrete input: a single
tile lying outside the clip box covers no cell, so cell `(0, 0)` of the
composited grid is NaN. -/
theorem uncovered_cells_are_nan_witness :
    (∀ t ∈ [tFar], ¬ covers ⟨0, 0, 2, 2⟩ 2 2 1 1 t 0 0) ∧
    compositeGrid ⟨0, 0, 2, 2⟩ 2 2 1 1 [tFar] 0 0 = none := by
  have h : ∀ t ∈ [tFar], ¬ covers ⟨0, 0, 2, 2⟩ 2 2 1 1 t 0 0 := by
    intro t ht
    simp only [List.mem_singleton] at ht
    subst ht
    intro hcov
    exact hcov.1 (Or.inr (Or.inl (by norm_num [tFar, Tile.bounds, tileSkipped])))
  exact ⟨h, uncovered_cells_are_nan ⟨0, 0, 2, 2⟩ 2 2 1 1 [tFar] 0 0 h⟩

/-- Heightmap metadata fields used by `build_terrain_mesh.py`
(`originLat`, `originLon`, `pixelSizeDeg` of the JSON document). -/
structure HMeta where
  originLat : ℚ
  originLon : ℚ
  pixelSizeDeg : ℚ

/-- A heightmap grid: `grid.shape = (height, width)` plus the samples
(`none` = NaN). -/
structure HGrid where
  height : ℕ
  width : ℕ
  data : ℕ → ℕ → Option ℚ

/-- Model of `latlon_to_local` from `build_terrain_mesh.py`.  `mdeg` stands for
`(math.pi / 180) * EARTH_RADIUS` and `coslat` for
`math.cos(math.radians(origin_lat))`; both are transcendental in the
source and are passed as parameters here. -/
def latlon_to_local (lat lon origin_lat origin_lon mdeg coslat : ℚ) : ℚ × ℚ :=
  let dx_meters := (lon - origin_lon) * (mdeg * coslat)
  let dz_meters := (lat - origin_lat) * mdeg
  (dx_meters * METERS_TO_FEET, dz_meters * METERS_TO_FEET)

/-- The Y (elevation) computation of `create_terrain_mesh`:
`y = grid[row, col] * METERS_TO_FEET`, snapped to `0.0` when the sample
is NaN or `y < -1000`. -/
def meshY (s : Option ℚ) : ℚ :=
  match s with
  | none => 0
  | some v => if v * METERS_TO_FEET < -1000 then 0 else v * METERS_TO_FEET

/-- One vertex of `create_terrain_mesh`: the pixel's geographic position
from the heightmap origin (`hlat`, `hlon`) and pixel size `pix`,
projected via `latlon_to_local`, with the snapped elevation as Y. -/
def meshVertex (g : HGrid) (hlat hlon pix olat olon mdeg coslat : ℚ)
    (row col : ℕ) : ℚ × ℚ × ℚ :=
  let lon := hlon + col * pix
  let lat := hlat - row * pix
  let xz := latlon_to_local lat lon olat olon mdeg coslat
  (xz.1, meshY (g.data row col), xz.2)

/-- The vertex list of `create_terrain_mesh`: the double loop
`for row in range(height): for col in range(width)` appending one vertex
per cell, row-major. -/
def mVerts (g : HGrid) (hlat hlon pix olat olon mdeg coslat : ℚ) :
    List (ℚ × ℚ × ℚ) :=
  (List.range g.height).flatMap fun row =>
    (List.range g.width).map fun col =>
      meshVertex g hlat hlon pix olat olon mdeg coslat row col

/-- The two triangles emitted for the quad at `(row, col)`:
`faces.append([v00, v10, v01]); faces.append([v01, v10, v11])`. -/
def quadFaces (W row col : ℕ) : List (ℕ × ℕ × ℕ) :=
  [(row * W + col, (row + 1) * W + col, row * W + col + 1),
   (row * W + col + 1, (row + 1) * W + col, (row + 1) * W + col + 1)]

/-- The face list of `create_terrain_mesh`: the double loop
`for row in range(height - 1): for col in range(width - 1)`. -/
def mFaces (W H : ℕ) : List (ℕ × ℕ × ℕ) :=
  (List.range (H - 1)).flatMap fun row =>
    (List.range (W - 1)).flatMap fun col => quadFaces W row col

/-- The downsampling slice `grid[::d, ::d]`: every `d`-th row and
column, so `ceil(n / d)` of each dimension survive. -/
def dsGrid (g : HGrid) (d : ℕ) : HGrid :=
  { height := (g.height + d - 1) / d
    width := (g.width + d - 1) / d
    data := fun r c => g.data (d * r) (d * c) }

/-- Model of `create_terrain_mesh` from `build_terrain_mesh.py`: slice the grid
when `downsample > 1`, scale the pixel size by `downsample`, and return
the vertex and face lists. -/
def create_terrain_mesh (g : HGrid) (m : HMeta) (olat olon mdeg coslat : ℚ)
    (d : ℕ) : List (ℚ × ℚ × ℚ) × List (ℕ × ℕ × ℕ) :=
  let g2 := if 1 < d then dsGrid g d else g
  let pix := m.pixelSizeDeg * d
  (mVerts g2 m.originLat m.originLon pix olat olon mdeg coslat,
   mFaces g2.width g2.height)

lemma range_flatMap_length {α : Type} (f : ℕ → List α) (L n : ℕ)
    (h : ∀ i, (f i).length = L) :
    ((List.range n).flatMap f).length = n * L := by
  induction n with
  | zero => simp
  | succ k ih =>
      rw [List.range_succ, List.flatMap_append, List.length_append, ih]
      simp [h, Nat.succ_mul]

lemma range_flatMap_getElem {α : Type} (f : ℕ → List α) (L : ℕ)
    (h : ∀ i, (f i).length = L) (n r j : ℕ) (hr : r < n) (hj : j < L) :
    ((List.range n).flatMap f)[r * L + j]? = (f r)[j]? := by
  induction n with
  | zero => omega
  | succ k ih =>
      rw [List.range_succ, List.flatMap_append]
      rcases Nat.lt_or_ge r k with hrk | hrk
      · have hlen : r * L + j < ((List.range k).flatMap f).length := by
          rw [range_flatMap_length f L k h]
          calc r * L + j < r * L + L := by omega
            _ = (r + 1) * L := by ring
            _ ≤ k * L := mul_le_mul_right' hrk L
        rw [List.getElem?_append, if_pos hlen]
        exact ih hrk
      · have hreq : r = k := by omega
        subst hreq
        have hlen : ((List.range r).flatMap f).length = r * L :=
          range_flatMap_length f L r h
        rw [List.getElem?_append_right (by omega)]
        rw [hlen]
        have hidx : r * L + j - r * L = j := by omega
        rw [hidx]
        simp [List.flatMap_cons]

lemma mVerts_length (g : HGrid) (hlat hlon pix olat olon mdeg coslat : ℚ) :
    (mVerts g hlat hlon pix olat olon mdeg coslat).length = g.height * g.width := by
  unfold mVerts
  exact range_flatMap_length _ g.width g.height (fun i => by simp)

lemma mVerts_getElem (g : HGrid) (hlat hlon pix olat olon mdeg coslat : ℚ)
    (r c : ℕ) (hr : r < g.height) (hc : c < g.width) :
    (mVerts g hlat hlon pix olat olon mdeg coslat)[r * g.width + c]? =
      some (meshVertex g hlat hlon pix olat olon mdeg coslat r c) := by
  unfold mVerts
  rw [range_flatMap_getElem _ g.width (fun i => by simp) g.height r c hr hc]
  rw [List.getElem?_map, List.getElem?_range hc]
  rfl

lemma mFaces_inner_length (W row : ℕ) :
    ((List.range (W - 1)).flatMap fun col => quadFaces W row col).length =
      (W - 1) * 2 :=
  range_flatMap_length _ 2 (W - 1) (fun i => by simp [quadFaces])

lemma mFaces_length (W H : ℕ) :
    (mFaces W H).length = (H - 1) * ((W - 1) * 2) := by
  unfold mFaces
  exact range_flatMap_length _ ((W - 1) * 2) (H - 1)
    (fun i => mFaces_inner_length W i)

lemma mFaces_getElem (W H r c j : ℕ) (hr : r < H - 1) (hc : c < W - 1)
    (hj : j < 2) :
    (mFaces W H)[r * ((W - 1) * 2) + (c * 2 + j)]? = (quadFaces W r c)[j]? := by
  unfold mFaces
  rw [range_flatMap_getElem _ ((W - 1) * 2) (fun i => mFaces_inner_length W i)
    (H - 1) r (c * 2 + j) hr (by omega)]
  rw [range_flatMap_getElem _ 2 (fun i => by simp [quadFaces]) (W - 1) c j hc hj]

/-- C1: for a heightmap grid of width `W ≥ 1` and height `H ≥ 1` passed
to `create_terrain_mesh` (after any downsampling, so with no further
downsampling here), the mesh has exactly `W * H` vertices, the vertex of
grid cell `(r, c)` sits at index `r * W + c`, exactly
`2 * (W - 1) * (H - 1)` triangles are emitted, the quad at `(r, c)`
contributes `(v00, v10, v01)` then `(v01, v10, v11)` at face positions
`2 * (r * (W - 1) + c)` and the next one, and every triangle's three
indices are pairwise distinct and below `W * H`. -/
theorem terrain_mesh_structure (g : HGrid) (m : HMeta)
    (olat olon mdeg coslat : ℚ) (hW : 1 ≤ g.width) (hH : 1 ≤ g.height) :
    (create_terrain_mesh g m olat olon mdeg coslat 1).1.length =
      g.width * g.height ∧
    (∀ r c, r < g.height → c < g.width →
      (create_terrain_mesh g m olat olon mdeg coslat 1).1[r * g.width + c]? =
        some (meshVertex g m.originLat m.originLon (m.pixelSizeDeg * 1)
          olat olon mdeg coslat r c)) ∧
    (create_terrain_mesh g m olat olon mdeg coslat 1).2.length =
      2 * (g.width - 1) * (g.height - 1) ∧
    (∀ r c, r < g.height - 1 → c < g.width - 1 →
      (create_terrain_mesh g m olat olon mdeg coslat 1).2[2 * (r * (g.width - 1) + c)]? =
        some (r * g.width + c, (r + 1) * g.width + c, r * g.width + c + 1) ∧
      (create_terrain_mesh g m olat olon mdeg coslat 1).2[2 * (r * (g.width - 1) + c) + 1]? =
        some (r * g.width + c + 1, (r + 1) * g.width + c,
          (r + 1) * g.width + c + 1)) ∧
    (∀ f ∈ (create_terrain_mesh g m olat olon mdeg coslat 1).2,
      (f.1 ≠ f.2.1 ∧ f.1 ≠ f.2.2 ∧ f.2.1 ≠ f.2.2) ∧
      f.1 < g.width * g.height ∧ f.2.1 < g.width * g.height ∧
      f.2.2 < g.width * g.height) := by
  have hmesh : create_terrain_mesh g m olat olon mdeg coslat 1 =
      (mVerts g m.originLat m.originLon (m.pixelSizeDeg * 1) olat olon mdeg coslat,
       mFaces g.width g.height) := by
    unfold create_terrain_mesh
    norm_num
  rw [hmesh]
  refine ⟨?_, ?_, ?_, ?_, ?_⟩
  · rw [mVerts_length]; ring
  · intro r c hr hc
    exact mVerts_getElem g _ _ _ _ _ _ _ r c hr hc
  · rw [mFaces_length]; ring
  · intro r c hr hc
    constructor
    · have hidx : 2 * (r * (g.width - 1) + c) =
          r * ((g.width - 1) * 2) + (c * 2 + 0) := by ring
      rw [hidx, mFaces_getElem g.width g.height r c 0 hr hc (by omega)]
      rfl
    · have hidx : 2 * (r * (g.width - 1) + c) + 1 =
          r * ((g.width - 1) * 2) + (c * 2 + 1) := by ring
      rw [hidx, mFaces_getElem g.width g.height r c 1 hr hc (by omega)]
      rfl
  · intro f hf
    unfold mFaces at hf
    rw [List.mem_flatMap] at hf
    obtain ⟨row, hrow, hf⟩ := hf
    rw [List.mem_flatMap] at hf
    obtain ⟨col, hcol, hf⟩ := hf
    rw [List.mem_range] at hrow hcol
    have hW2 : col + 2 ≤ g.width := by omega
    have hH2 : row + 2 ≤ g.height := by omega
    have hb : (row + 2) * g.width ≤ g.height * g.width :=
      mul_le_mul_right' hH2 g.width
    have e1 : (row + 2) * g.width = row * g.width + 2 * g.width := by ring
    have e2 : (row + 1) * g.width = row * g.width + g.width := by ring
    have hfin : (row + 1) * g.width + col + 1 < g.width * g.height := by
      rw [mul_comm g.width g.height]
      calc (row + 1) * g.width + col + 1
          = row * g.width + g.width + col + 1 := by rw [e2]
        _ < row * g.width + 2 * g.width := by omega
        _ = (row + 2) * g.width := by rw [e1]
        _ ≤ g.height * g.width := hb
    simp only [quadFaces, List.mem_cons, List.mem_singleton] at hf
    rcases hf with hf | hf | hf
    · subst hf
      refine ⟨⟨?_, ?_, ?_⟩, ?_, ?_, ?_⟩ <;> dsimp only <;> omega
    · subst hf
      refine ⟨⟨?_, ?_, ?_⟩, ?_, ?_, ?_⟩ <;> dsimp only <;> omega
    · cases hf

/-- A concrete all-zero 2-by-2 heightmap grid. -/
def g2x2 : HGrid := ⟨2, 2, fun _ _ => some 0⟩

/-- A concrete heightmap metadata record with pixel size 1. -/
def m0 : HMeta := ⟨0, 0, 1⟩

/-- Witness for `terrain_mesh_structure` at a concrete 2-by-2 grid. -/
theorem terrain_mesh_structure_witness :
    (create_terrain_mesh g2x2 m0 0 0 1 1 1).1.length = 2 * 2 ∧
    (create_terrain_mesh g2x2 m0 0 0 1 1 1).2.length = 2 * (2 - 1) * (2 - 1) ∧
    (create_terrain_mesh g2x2 m0 0 0 1 1 1).2[0]? = some (0, 2, 1) := by
  have h := terrain_mesh_structure g2x2 m0 0 0 1 1 (by decide) (by decide)
  refine ⟨h.1, h.2.2.1, ?_⟩
  have h4 := (h.2.2.2.1 0 0 (by decide) (by decide)).1
  simpa using h4

/-- A 3-by-3 heightmap grid whose every sample is NaN. -/
def g3nan : HGrid := ⟨3, 3, fun _ _ => none⟩

/-- C7: a vertex whose elevation sample is NaN, or whose elevation in
feet is below `-1000`, gets Y exactly `0` (never NaN) in
`create_terrain_mesh`; in particular an all-NaN 3-by-3 grid yields 9
vertices, all with Y = 0, and 8 triangles. -/
theorem nodata_snapped_to_zero :
    (∀ (g : HGrid) (hlat hlon pix olat olon mdeg coslat : ℚ) (row col : ℕ),
      (g.data row col = none ∨
        ∃ v, g.data row col = some v ∧ v * METERS_TO_FEET < -1000) →
      (meshVertex g hlat hlon pix olat olon mdeg coslat row col).2.1 = 0) ∧
    (∀ (m : HMeta) (olat olon mdeg coslat : ℚ),
      (create_terrain_mesh g3nan m olat olon mdeg coslat 1).1.length = 9 ∧
      (∀ p ∈ (create_terrain_mesh g3nan m olat olon mdeg coslat 1).1,
        p.2.1 = 0) ∧
      (create_terrain_mesh g3nan m olat olon mdeg coslat 1).2.length = 8) := by
  constructor
  · intro g hlat hlon pix olat olon mdeg coslat row col h
    unfold meshVertex
    dsimp only
    rcases h with h | ⟨v, hv, hlt⟩
    · rw [h]; rfl
    · rw [hv]
      simp only [meshY]
      rw [if_pos hlt]
  · intro m olat olon mdeg coslat
    have hmesh : create_terrain_mesh g3nan m olat olon mdeg coslat 1 =
        (mVerts g3nan m.originLat m.originLon (m.pixelSizeDeg * 1)
          olat olon mdeg coslat, mFaces 3 3) := by
      unfold create_terrain_mesh
      norm_num [g3nan]
    rw [hmesh]
    refine ⟨by rw [mVerts_length]; rfl, ?_, by rw [mFaces_length]⟩
    intro p hp
    unfold mVerts at hp
    rw [List.mem_flatMap] at hp
    obtain ⟨row, _, hp⟩ := hp
    rw [List.mem_map] at hp
    obtain ⟨col, _, hp⟩ := hp
    subst hp
    rfl

/-- Witness for `nodata_snapped_to_zero` at concrete inputs: a NaN cell
of the all-NaN grid gets Y = 0, and the 3-by-3 scenario facts hold
for a concrete metadata record. -/
theorem nodata_snapped_to_zero_witness :
    (meshVertex g3nan 0 0 1 0 0 1 1 0 0).2.1 = 0 ∧
    (create_terrain_mesh g3nan m0 0 0 1 1 1).1.length = 9 ∧
    (create_terrain_mesh g3nan m0 0 0 1 1 1).2.length = 8 :=
  ⟨nodata_snapped_to_zero.1 g3nan 0 0 1 0 0 1 1 0 0 (Or.inl rfl),
   (nodata_snapped_to_zero.2 m0 0 0 1 1).1,
   (nodata_snapped_to_zero.2 m0 0 0 1 1).2.2⟩

/-- Model of `chunks_x = math.ceil(width / chunk_size)` from
`create_chunked_terrain` (likewise `chunks_z` for the height). -/
def chunksX (w s : ℕ) : ℕ := (⌈(w : ℚ) / s⌉).toNat

/-- The sub-grid `grid[row_start:row_end, col_start:col_end]` extracted
for chunk `(cc, cr)`: `row_start = cr * s`,
`row_end = min(row_start + s + 1, height)` (the `+1` is the one-cell
overlap), columns analogous. -/
def chunkGrid (g : HGrid) (s cc cr : ℕ) : HGrid :=
  { height := min (cr * s + s + 1) g.height - cr * s
    width := min (cc * s + s + 1) g.width - cc * s
    data := fun r c => g.data (cr * s + r) (cc * s + c) }

/-- The adjusted metadata for chunk `(cc, cr)`: origin shifted by
`row_start * pixel_size` / `col_start * pixel_size` with
`pixel_size = meta.pixelSizeDeg * downsample`; note `pixelSizeDeg`
itself is copied unchanged. -/
def chunkHMeta (m : HMeta) (s d cc cr : ℕ) : HMeta :=
  { originLat := m.originLat - (cr * s : ℕ) * (m.pixelSizeDeg * d)
    originLon := m.originLon + (cc * s : ℕ) * (m.pixelSizeDeg * d)
    pixelSizeDeg := m.pixelSizeDeg }

/-- The mesh `create_chunked_terrain` builds for chunk `(cc, cr)`:
downsample the full grid once, extract the chunk sub-grid, and call
`create_terrain_mesh` on it with `downsample=1` and the adjusted
metadata. -/
def chunkMesh (g : HGrid) (m : HMeta) (olat olon mdeg coslat : ℚ)
    (s d cc cr : ℕ) : List (ℚ × ℚ × ℚ) × List (ℕ × ℕ × ℕ) :=
  let g2 := if 1 < d then dsGrid g d else g
  create_terrain_mesh (chunkGrid g2 s cc cr) (chunkHMeta m s d cc cr)
    olat olon mdeg coslat 1

lemma lt_chunksX_iff (w s k : ℕ) (hs : 1 ≤ s) :
    k < chunksX w s ↔ k * s < w := by
  unfold chunksX
  rw [Int.lt_toNat, Int.lt_ceil]
  have hs0 : (0 : ℚ) < s := by exact_mod_cast Nat.lt_of_lt_of_le Nat.zero_lt_one hs
  rw [lt_div_iff₀ hs0]
  constructor
  · intro h; exact_mod_cast h
  · intro h; exact_mod_cast h

/-- C5: with `downsample = 1`, the chunk grid of `create_chunked_terrain`
has `chunks_x = ceil(width / chunk_size)` columns of chunks (chunk `k`
exists iff `k * s < width`), chunk `(cc, cr)` is built from the rows
`[cr*s, min(height, cr*s+s+1))` and the analogous column range with a
one-cell overlap, and for horizontally adjacent chunks `(cc, cr)` and
`(cc+1, cr)` the vertices along the shared boundary column (local
column `s` of the left chunk, local column `0` of the right chunk) have
identical local-space (X, Y, Z) coordinates. -/
theorem chunk_boundary_vertices_shared (g : HGrid) (m : HMeta)
    (olat olon mdeg coslat : ℚ) (s cc cr r : ℕ) (hs : 1 ≤ s)
    (hcc : cc + 1 < chunksX g.width s)
    (hr : r < (chunkGrid g s cc cr).height) :
    (∀ k, k < chunksX g.width s ↔ k * s < g.width) ∧
    (chunkGrid g s cc cr).height = min g.height (cr * s + s + 1) - cr * s ∧
    (chunkGrid g s cc cr).width = s + 1 ∧
    (chunkGrid g s (cc + 1) cr).height = (chunkGrid g s cc cr).height ∧
    1 ≤ (chunkGrid g s (cc + 1) cr).width ∧
    (chunkMesh g m olat olon mdeg coslat s 1 cc cr).1[r * (s + 1) + s]? =
      (chunkMesh g m olat olon mdeg coslat s 1 (cc + 1) cr).1[
        r * (chunkGrid g s (cc + 1) cr).width + 0]? ∧
    (chunkMesh g m olat olon mdeg coslat s 1 cc cr).1[r * (s + 1) + s]? ≠
      none := by
  have hccw : (cc + 1) * s < g.width := (lt_chunksX_iff _ _ _ hs).mp hcc
  have e1 : (cc + 1) * s = cc * s + s := by ring
  have hwL : (chunkGrid g s cc cr).width = s + 1 := by
    show min (cc * s + s + 1) g.width - cc * s = s + 1
    omega
  have hwR : 1 ≤ (chunkGrid g s (cc + 1) cr).width := by
    show 1 ≤ min ((cc + 1) * s + s + 1) g.width - (cc + 1) * s
    omega
  have hhR : (chunkGrid g s (cc + 1) cr).height = (chunkGrid g s cc cr).height :=
    rfl
  have hrR : r < (chunkGrid g s (cc + 1) cr).height := hr
  have hmL : chunkMesh g m olat olon mdeg coslat s 1 cc cr =
      create_terrain_mesh (chunkGrid g s cc cr) (chunkHMeta m s 1 cc cr)
        olat olon mdeg coslat 1 := by
    unfold chunkMesh
    norm_num
  have hmR : chunkMesh g m olat olon mdeg coslat s 1 (cc + 1) cr =
      create_terrain_mesh (chunkGrid g s (cc + 1) cr) (chunkHMeta m s 1 (cc + 1) cr)
        olat olon mdeg coslat 1 := by
    unfold chunkMesh
    norm_num
  have hL := mVerts_getElem (chunkGrid g s cc cr)
    (chunkHMeta m s 1 cc cr).originLat (chunkHMeta m s 1 cc cr).originLon
    ((chunkHMeta m s 1 cc cr).pixelSizeDeg * (1 : ℕ)) olat olon mdeg coslat
    r s hr (by omega)
  have hR := mVerts_getElem (chunkGrid g s (cc + 1) cr)
    (chunkHMeta m s 1 (cc + 1) cr).originLat (chunkHMeta m s 1 (cc + 1) cr).originLon
    ((chunkHMeta m s 1 (cc + 1) cr).pixelSizeDeg * (1 : ℕ)) olat olon mdeg coslat
    r 0 hrR (by omega)
  rw [hwL] at hL
  have hvert : meshVertex (chunkGrid g s cc cr)
      (chunkHMeta m s 1 cc cr).originLat (chunkHMeta m s 1 cc cr).originLon
      ((chunkHMeta m s 1 cc cr).pixelSizeDeg * (1 : ℕ)) olat olon mdeg coslat r s =
      meshVertex (chunkGrid g s (cc + 1) cr)
        (chunkHMeta m s 1 (cc + 1) cr).originLat
        (chunkHMeta m s 1 (cc + 1) cr).originLon
        ((chunkHMeta m s 1 (cc + 1) cr).pixelSizeDeg * (1 : ℕ)) olat olon mdeg coslat
        r 0 := by
    unfold meshVertex latlon_to_local chunkHMeta chunkGrid
    dsimp only
    have hidx : (cc + 1) * s + 0 = cc * s + s := by ring
    rw [hidx]
    have hlon : m.originLon + ↑(cc * s) * (m.pixelSizeDeg * ↑(1 : ℕ)) +
        ↑s * (m.pixelSizeDeg * ↑(1 : ℕ)) =
        m.originLon + ↑((cc + 1) * s) * (m.pixelSizeDeg * ↑(1 : ℕ)) +
        ↑(0 : ℕ) * (m.pixelSizeDeg * ↑(1 : ℕ)) := by
      push_cast
      ring
    rw [hlon]
  have hh2 : (chunkGrid g s cc cr).height =
      min g.height (cr * s + s + 1) - cr * s := by
    show min (cr * s + s + 1) g.height - cr * s =
      min g.height (cr * s + s + 1) - cr * s
    omega
  constructor
  · intro k
    exact lt_chunksX_iff g.width s k hs
  refine ⟨hh2, hwL, hhR, hwR, ?_, ?_⟩
  · rw [hmL, hmR]
    show (mVerts (chunkGrid g s cc cr) _ _ _ _ _ _ _)[r * (s + 1) + s]? =
      (mVerts (chunkGrid g s (cc + 1) cr) _ _ _ _ _ _ _)[
        r * (chunkGrid g s (cc + 1) cr).width + 0]?
    rw [hL, hR, hvert]
  · rw [hmL]
    show (mVerts (chunkGrid g s cc cr) _ _ _ _ _ _ _)[r * (s + 1) + s]? ≠ none
    rw [hL]
    simp

/-- A concrete 5-by-5 heightmap grid with distinct samples. -/
def g5 : HGrid := ⟨5, 5, fun r c => some ((r : ℚ) + c)⟩

/-- Witness for `chunk_boundary_vertices_shared` on the concrete
5-by-5 grid with chunk size 2: chunks (0,0) and (1,0) agree on their
shared boundary column. -/
theorem chunk_boundary_vertices_shared_witness :
    (chunkGrid g5 2 0 0).width = 2 + 1 ∧
    (chunkMesh g5 m0 0 0 1 1 2 1 0 0).1[0 * (2 + 1) + 2]? =
      (chunkMesh g5 m0 0 0 1 1 2 1 1 0).1[0 * (chunkGrid g5 2 1 0).width + 0]? := by
  have h := chunk_boundary_vertices_shared g5 m0 0 0 1 1 2 0 0 0 (by norm_num)
    ((lt_chunksX_iff 5 2 1 (by norm_num)).mpr (by norm_num)) (by decide)
  exact ⟨h.2.2.1, h.2.2.2.2.2.1⟩

/-- A concrete all-zero 3-by-3 heightmap grid. -/
def g33 : HGrid := ⟨3, 3, fun _ _ => some 0⟩

/-- C9 fails on the code: on a 3-by-3 grid with pixel size 1,
downsample 2, and a chunk size large enough for a single chunk, the
single-mesh path spaces vertices by `pixelSizeDeg * downsample = 2`
while the chunked path's only chunk spaces them by the unscaled
`pixelSizeDeg = 1` (because `create_chunked_terrain` copies
`pixelSizeDeg` into `chunk_meta` without multiplying it by the
downsample factor, then calls `create_terrain_mesh` with
`downsample=1`).  Vertex `(0, 1)` lands at X = `2 * METERS_TO_FEET`
versus X = `METERS_TO_FEET`, so the two vertex lists differ. -/
theorem downsampled_chunk_pixel_scale_mismatch :
    (create_terrain_mesh g33 m0 0 0 1 1 2).1[1]? =
      some (2 * METERS_TO_FEET, 0, 0) ∧
    (chunkMesh g33 m0 0 0 1 1 4 2 0 0).1[1]? =
      some (METERS_TO_FEET, 0, 0) ∧
    (create_terrain_mesh g33 m0 0 0 1 1 2).1 ≠
      (chunkMesh g33 m0 0 0 1 1 4 2 0 0).1 := by
  have hMTF : METERS_TO_FEET = 328084 / 100000 := by norm_num [METERS_TO_FEET]
  have hidx : 0 * (dsGrid g33 2).width + 1 = 1 := by decide
  have h1 := mVerts_getElem (dsGrid g33 2) m0.originLat m0.originLon
    (m0.pixelSizeDeg * ((2 : ℕ) : ℚ)) 0 0 1 1 0 1 (by decide) (by decide)
  rw [hidx] at h1
  have hs1 : (create_terrain_mesh g33 m0 0 0 1 1 2).1[1]? =
      some (2 * METERS_TO_FEET, 0, 0) := by
    show (mVerts (dsGrid g33 2) m0.originLat m0.originLon
      (m0.pixelSizeDeg * ((2 : ℕ) : ℚ)) 0 0 1 1)[1]? = _
    rw [h1]
    norm_num [meshVertex, latlon_to_local, meshY, dsGrid, g33, m0, METERS_TO_FEET]
  have hidx2 : 0 * (chunkGrid (dsGrid g33 2) 4 0 0).width + 1 = 1 := by decide
  have h2 := mVerts_getElem (chunkGrid (dsGrid g33 2) 4 0 0)
    (chunkHMeta m0 4 2 0 0).originLat (chunkHMeta m0 4 2 0 0).originLon
    ((chunkHMeta m0 4 2 0 0).pixelSizeDeg * ((1 : ℕ) : ℚ)) 0 0 1 1 0 1
    (by decide) (by decide)
  rw [hidx2] at h2
  have hs2 : (chunkMesh g33 m0 0 0 1 1 4 2 0 0).1[1]? =
      some (METERS_TO_FEET, 0, 0) := by
    show (mVerts (chunkGrid (dsGrid g33 2) 4 0 0)
      (chunkHMeta m0 4 2 0 0).originLat (chunkHMeta m0 4 2 0 0).originLon
      ((chunkHMeta m0 4 2 0 0).pixelSizeDeg * ((1 : ℕ) : ℚ)) 0 0 1 1)[1]? = _
    rw [h2]
    norm_num [meshVertex, latlon_to_local, meshY, chunkGrid, chunkHMeta, dsGrid,
      g33, m0, METERS_TO_FEET]
  refine ⟨hs1, hs2, ?_⟩
  intro heq
  have h3 : (create_terrain_mesh g33 m0 0 0 1 1 2).1[1]? =
      (chunkMesh g33 m0 0 0 1 1 4 2 0 0).1[1]? := by rw [heq]
  rw [hs1, hs2] at h3
  have h4 : (2 * METERS_TO_FEET : ℚ) = METERS_TO_FEET := by
    have := Option.some.inj h3
    exact congrArg Prod.fst this
  rw [hMTF] at h4
  norm_num at h4

lemma pyRound_zero : pyRound 0 = 0 := by
  unfold pyRound
  norm_num

/-- C10: where a later tile's copied sub-array overlaps an earlier
tile's, the later tile's sample is copied verbatim even when it is NaN:
a cell covered by both tiles that received a valid value `v` from the
first tile ends up NaN after the second tile (with a NaN sample there)
is composited — last-write-wins applies to nodata cells too. -/
theorem later_tile_nan_overwrites (clip : GeoBounds) (W H : ℤ) (sl sa : ℚ)
    (t1 t2 : Tile) (r c : ℤ) (v : ℚ)
    (h1 : covers clip W H sl sa t1 r c)
    (hv : tileSample clip sl sa t1 r c = some v)
    (h2 : covers clip W H sl sa t2 r c)
    (hn : tileSample clip sl sa t2 r c = none) :
    compositeGrid clip W H sl sa [t1] r c = some v ∧
    compositeGrid clip W H sl sa [t1, t2] r c = none := by
  constructor
  · show compositeTile clip W H sl sa (fun _ _ => none) t1 r c = some v
    rw [compositeTile]
    rw [if_pos h1]
    exact hv
  · show compositeTile clip W H sl sa
      (compositeTile clip W H sl sa (fun _ _ => none) t1) t2 r c = none
    rw [compositeTile]
    rw [if_pos h2]
    exact hn

/-- A 1-by-1 tile at origin `(lon 0, lat 1)` with pixel scale 1 and the
given single sample; its bounding box is `(0, 0, 1, 1)`. -/
def tOne (x : Option ℚ) : Tile :=
  { theight := 1, twidth := 1, tdata := fun _ _ => x
    origin_lon := 0, origin_lat := 1, scale_lon := 1, scale_lat := 1 }

lemma tOne_originCol (x : Option ℚ) :
    tileOriginCol ⟨0, 0, 1, 1⟩ 1 (tOne x) = 0 := by
  unfold tileOriginCol tOne
  norm_num [pyRound_zero]

lemma tOne_originRow (x : Option ℚ) :
    tileOriginRow ⟨0, 0, 1, 1⟩ 1 (tOne x) = 0 := by
  unfold tileOriginRow tOne
  norm_num [pyRound_zero]

lemma tOne_covers (x : Option ℚ) : covers ⟨0, 0, 1, 1⟩ 1 1 1 1 (tOne x) 0 0 := by
  refine ⟨?_, ?_, ?_, ?_, ?_⟩
  · intro h
    rcases h with h | h | h | h <;>
      norm_num [tOne, Tile.bounds] at h
  · rw [tOne_originRow]; norm_num
  · rw [tOne_originRow]; norm_num [tOne]
  · rw [tOne_originCol]; norm_num
  · rw [tOne_originCol]; norm_num [tOne]

lemma tOne_sample (x : Option ℚ) :
    tileSample ⟨0, 0, 1, 1⟩ 1 1 (tOne x) 0 0 = x := by
  unfold tileSample
  rw [tOne_originCol, tOne_originRow]
  rfl

/-- Witness for `later_tile_nan_overwrites` on two concrete coincident
1-by-1 tiles: the first holds 7, the second holds NaN, and the final
grid cell is NaN. -/
theorem later_tile_nan_overwrites_witness :
    compositeGrid ⟨0, 0, 1, 1⟩ 1 1 1 1 [tOne (some 7)] 0 0 = some 7 ∧
    compositeGrid ⟨0, 0, 1, 1⟩ 1 1 1 1 [tOne (some 7), tOne none] 0 0 = none :=
  later_tile_nan_overwrites ⟨0, 0, 1, 1⟩ 1 1 1 1 (tOne (some 7)) (tOne none) 0 0 7
    (tOne_covers (some 7)) (tOne_sample (some 7)) (tOne_covers none)
    (tOne_sample none)

/-- C6: compositing a single tile with clip bounds equal to the tile's
own bounding box yields a target grid with exactly the tile's
dimensions, and every cell equals the corresponding tile sample
(identity round-trip: nothing is shifted, altered, or left NaN beyond
what the tile itself holds). -/
theorem single_tile_identity (t : Tile) (hsl : 0 < t.scale_lon)
    (hsa : 0 < t.scale_lat) :
    gridWidth t.bounds t.scale_lon = (t.twidth : ℤ) ∧
    gridHeight t.bounds t.scale_lat = (t.theight : ℤ) ∧
    ∀ r c : ℕ, r < t.theight → c < t.twidth →
      mosaic t.bounds t.scale_lon t.scale_lat [t] r c = t.tdata r c := by
  have hsl' : t.scale_lon ≠ 0 := ne_of_gt hsl
  have hsa' : t.scale_lat ≠ 0 := ne_of_gt hsa
  have hW : gridWidth t.bounds t.scale_lon = (t.twidth : ℤ) := by
    unfold gridWidth Tile.bounds
    dsimp only
    rw [show t.origin_lon + ↑t.twidth * t.scale_lon - t.origin_lon =
      ↑t.twidth * t.scale_lon from by ring]
    rw [mul_div_cancel_right₀ _ hsl', Int.ceil_natCast]
  have hH : gridHeight t.bounds t.scale_lat = (t.theight : ℤ) := by
    unfold gridHeight Tile.bounds
    dsimp only
    rw [show t.origin_lat - (t.origin_lat - ↑t.theight * t.scale_lat) =
      ↑t.theight * t.scale_lat from by ring]
    rw [mul_div_cancel_right₀ _ hsa', Int.ceil_natCast]
  have hoc : tileOriginCol t.bounds t.scale_lon t = 0 := by
    unfold tileOriginCol Tile.bounds
    dsimp only
    rw [sub_self, zero_div, pyRound_zero]
  have hor : tileOriginRow t.bounds t.scale_lat t = 0 := by
    unfold tileOriginRow Tile.bounds
    dsimp only
    rw [sub_self, zero_div, pyRound_zero]
  have hw0 : (0 : ℚ) ≤ ↑t.twidth * t.scale_lon := by positivity
  have hh0 : (0 : ℚ) ≤ ↑t.theight * t.scale_lat := by positivity
  have hns : ¬ tileSkipped t.bounds t := by
    intro h
    rcases h with h | h | h | h
    · unfold Tile.bounds at h; dsimp only at h; linarith
    · unfold Tile.bounds at h; dsimp only at h; linarith
    · unfold Tile.bounds at h; dsimp only at h; linarith
    · unfold Tile.bounds at h; dsimp only at h; linarith
  refine ⟨hW, hH, ?_⟩
  intro r c hr hc
  have hcov : covers t.bounds (t.twidth : ℤ) (t.theight : ℤ)
      t.scale_lon t.scale_lat t r c := by
    refine ⟨hns, ?_, ?_, ?_, ?_⟩
    · rw [hor]; simp
    · rw [hor, zero_add, min_self]; exact_mod_cast hr
    · rw [hoc]; simp
    · rw [hoc, zero_add, min_self]; exact_mod_cast hc
  unfold mosaic
  rw [hW, hH]
  show compositeTile t.bounds (t.twidth : ℤ) (t.theight : ℤ)
    t.scale_lon t.scale_lat (fun _ _ => none) t r c = t.tdata r c
  rw [compositeTile]
  rw [if_pos hcov]
  unfold tileSample
  rw [hoc, hor]
  norm_num

/-- Witness for `single_tile_identity` on a concrete 1-by-1 tile
holding the sample 7. -/
theorem single_tile_identity_witness :
    gridWidth (tOne (some 7)).bounds (tOne (some 7)).scale_lon = 1 ∧
    mosaic (tOne (some 7)).bounds (tOne (some 7)).scale_lon
      (tOne (some 7)).scale_lat [tOne (some 7)] 0 0 = some 7 := by
  have h := single_tile_identity (tOne (some 7)) (by norm_num [tOne])
    (by norm_num [tOne])
  exact ⟨h.1, h.2.2 0 0 (by norm_num [tOne]) (by norm_num [tOne])⟩

lemma pyRound_half : pyRound (1 / 2) = 0 := by
  unfold pyRound
  rw [show ⌊(1 / 2 : ℚ)⌋ = 0 from by rw [Int.floor_eq_iff]; norm_num]
  norm_num

/-- Tile A of the two-tile overlap scenario: 2-by-2, origin
`(lon 0, lat 1)`, pixel scale 1, samples `ad`. -/
def tileA (ad : ℕ → ℕ → Option ℚ) : Tile :=
  { theight := 2, twidth := 2, tdata := ad
    origin_lon := 0, origin_lat := 1, scale_lon := 1, scale_lat := 1 }

/-- Tile B of the two-tile overlap scenario: 2-by-2, origin
`(lon 0.5, lat 1)`, pixel scale 1, samples `bd`. -/
def tileB (bd : ℕ → ℕ → Option ℚ) : Tile :=
  { theight := 2, twidth := 2, tdata := bd
    origin_lon := 1 / 2, origin_lat := 1, scale_lon := 1, scale_lat := 1 }

lemma unionAB (ad bd : ℕ → ℕ → Option ℚ) :
    compute_union_bounds (tileA ad) [tileB bd] = ⟨0, -1, 5 / 2, 1⟩ := by
  unfold compute_union_bounds
  simp only [List.foldl_cons, List.foldl_nil]
  unfold Tile.bounds tileA tileB
  simp only [GeoBounds.mk.injEq]
  refine ⟨?_, ?_, ?_, ?_⟩ <;> norm_num [min_def, max_def]

lemma tileA_originCol (ad : ℕ → ℕ → Option ℚ) :
    tileOriginCol ⟨0, -1, 5 / 2, 1⟩ 1 (tileA ad) = 0 := by
  unfold tileOriginCol tileA
  norm_num [pyRound_zero]

lemma tileA_originRow (ad : ℕ → ℕ → Option ℚ) :
    tileOriginRow ⟨0, -1, 5 / 2, 1⟩ 1 (tileA ad) = 0 := by
  unfold tileOriginRow tileA
  norm_num [pyRound_zero]

lemma tileB_originCol (bd : ℕ → ℕ → Option ℚ) :
    tileOriginCol ⟨0, -1, 5 / 2, 1⟩ 1 (tileB bd) = 0 := by
  unfold tileOriginCol tileB
  norm_num [pyRound_half]

lemma tileB_originRow (bd : ℕ → ℕ → Option ℚ) :
    tileOriginRow ⟨0, -1, 5 / 2, 1⟩ 1 (tileB bd) = 0 := by
  unfold tileOriginRow tileB
  norm_num [pyRound_zero]

lemma tileB_covers (bd : ℕ → ℕ → Option ℚ) (r c : ℕ) (hr : r < 2) (hc : c < 2) :
    covers ⟨0, -1, 5 / 2, 1⟩ 3 2 1 1 (tileB bd) r c := by
  refine ⟨?_, ?_, ?_, ?_, ?_⟩
  · intro h
    rcases h with h | h | h | h <;> norm_num [tileB, Tile.bounds] at h
  · rw [tileB_originRow]; simp
  · rw [tileB_originRow, zero_add]
    show (r : ℤ) < min 2 (tileB bd).theight
    norm_num [tileB]; exact_mod_cast hr
  · rw [tileB_originCol]; simp
  · rw [tileB_originCol, zero_add]
    show (c : ℤ) < min 3 (tileB bd).twidth
    norm_num [tileB]; exact_mod_cast hc

lemma tileA_not_covers_col2 (ad : ℕ → ℕ → Option ℚ) (r : ℤ) :
    ¬ covers ⟨0, -1, 5 / 2, 1⟩ 3 2 1 1 (tileA ad) r 2 := by
  intro hcov
  have h := hcov.2.2.2.2
  rw [tileA_originCol, zero_add] at h
  have h2 : (2 : ℤ) < min 3 (tileA ad).twidth := h
  norm_num [tileA] at h2

lemma tileB_not_covers_col2 (bd : ℕ → ℕ → Option ℚ) (r : ℤ) :
    ¬ covers ⟨0, -1, 5 / 2, 1⟩ 3 2 1 1 (tileB bd) r 2 := by
  intro hcov
  have h := hcov.2.2.2.2
  rw [tileB_originCol, zero_add] at h
  have h2 : (2 : ℤ) < min 3 (tileB bd).twidth := h
  norm_num [tileB] at h2

lemma gridWidthAB : gridWidth ⟨0, -1, 5 / 2, 1⟩ 1 = 3 := by
  unfold gridWidth
  rw [show ((5 / 2 : ℚ) - 0) / 1 = 5 / 2 from by norm_num]
  rw [Int.ceil_eq_iff]; norm_num

lemma gridHeightAB : gridHeight ⟨0, -1, 5 / 2, 1⟩ 1 = 2 := by
  unfold gridHeight
  rw [show ((1 : ℚ) - -1) / 1 = 2 from by norm_num]
  rw [Int.ceil_eq_iff]; norm_num

/-- C8 amended: in the two-2-by-2-tile scenario (tile A at lon 0, tile
B at lon 0.5, pixel scale 1, processed A then B, clip = union bounds),
the merged grid has width 3 and height 2, but Python's half-to-even
`round` maps tile B's half-pixel offset to column 0, so columns 0 and 1
hold tile B's values verbatim (B overwrites A on its whole copied
footprint) and column 2 stays NaN. -/
theorem overlap_scenario_amended (ad bd : ℕ → ℕ → Option ℚ) :
    gridWidth (compute_union_bounds (tileA ad) [tileB bd]) 1 = 3 ∧
    gridHeight (compute_union_bounds (tileA ad) [tileB bd]) 1 = 2 ∧
    (∀ r c : ℕ, r < 2 → c < 2 →
      mosaic (compute_union_bounds (tileA ad) [tileB bd]) 1 1
        [tileA ad, tileB bd] r c = bd r c) ∧
    (∀ r : ℕ, r < 2 →
      mosaic (compute_union_bounds (tileA ad) [tileB bd]) 1 1
        [tileA ad, tileB bd] r 2 = none) := by
  rw [unionAB]
  refine ⟨gridWidthAB, gridHeightAB, ?_, ?_⟩
  · intro r c hr hc
    unfold mosaic
    rw [gridWidthAB, gridHeightAB]
    show compositeTile ⟨0, -1, 5 / 2, 1⟩ 3 2 1 1
      (compositeTile ⟨0, -1, 5 / 2, 1⟩ 3 2 1 1 (fun _ _ => none) (tileA ad))
      (tileB bd) r c = bd r c
    rw [compositeTile, if_pos (tileB_covers bd r c hr hc)]
    unfold tileSample
    rw [tileB_originCol, tileB_originRow]
    norm_num [tileB]
  · intro r hr
    unfold mosaic
    rw [gridWidthAB, gridHeightAB]
    apply compositeGrid_not_covered
    intro t ht
    rcases List.mem_cons.mp ht with h | h
    · subst h; exact tileA_not_covers_col2 ad r
    · rcases List.mem_singleton.mp h with h
      subst h; exact tileB_not_covers_col2 bd r

/-- Concrete samples for tile A: 1, 2 / 3, 4. -/
def adC : ℕ → ℕ → Option ℚ := fun r c => some (1 + 2 * (r : ℚ) + c)

/-- Concrete samples for tile B: 5, 6 / 7, 8. -/
def bdC : ℕ → ℕ → Option ℚ := fun r c => some (5 + 2 * (r : ℚ) + c)

/-- C8 as stated is false on the code: with tile A holding 1..4 and
tile B holding 5..8, the merged grid's row 0 is (5, 6, NaN), not the
(A00, B00, B01) = (1, 5, 6) layout the scenario expects — tile B lands
at column offset 0 because Python `round(0.5) = 0`, and column 2 is
never written. -/
theorem overlap_scenario_counterexample :
    ¬ (mosaic (compute_union_bounds (tileA adC) [tileB bdC]) 1 1
        [tileA adC, tileB bdC] 0 0 = some 1 ∧
       mosaic (compute_union_bounds (tileA adC) [tileB bdC]) 1 1
        [tileA adC, tileB bdC] 0 1 = some 5 ∧
       mosaic (compute_union_bounds (tileA adC) [tileB bdC]) 1 1
        [tileA adC, tileB bdC] 0 2 = some 6) := by
  intro h
  have hact : mosaic (compute_union_bounds (tileA adC) [tileB bdC]) 1 1
      [tileA adC, tileB bdC] 0 0 = bdC 0 0 := by
    rw [unionAB]
    unfold mosaic
    rw [gridWidthAB, gridHeightAB]
    show compositeTile ⟨0, -1, 5 / 2, 1⟩ 3 2 1 1
      (compositeTile ⟨0, -1, 5 / 2, 1⟩ 3 2 1 1 (fun _ _ => none) (tileA adC))
      (tileB bdC) 0 0 = bdC 0 0
    have hc00 : covers ⟨0, -1, 5 / 2, 1⟩ 3 2 1 1 (tileB bdC) 0 0 := by
      have h00 := tileB_covers bdC 0 0 (by norm_num) (by norm_num)
      exact_mod_cast h00
    rw [compositeTile, if_pos hc00]
    unfold tileSample
    rw [tileB_originCol, tileB_originRow]
    norm_num [tileB]
  rw [hact] at h
  have h5 : (5 : ℚ) + 2 * (0 : ℕ) + (0 : ℕ) = 1 := by
    have := Option.some.inj h.1
    exact_mod_cast this
  norm_num at h5

/-- Witness for `overlap_scenario_amended` at the concrete samples:
cell (0, 1) holds tile B's sample 6 and cell (0, 2) is NaN. -/
theorem overlap_scenario_amended_witness :
    mosaic (compute_union_bounds (tileA adC) [tileB bdC]) 1 1
      [tileA adC, tileB bdC] 0 1 = bdC 0 1 ∧
    mosaic (compute_union_bounds (tileA adC) [tileB bdC]) 1 1
      [tileA adC, tileB bdC] 0 2 = none :=
  ⟨(overlap_scenario_amended adC bdC).2.2.1 0 1 (by norm_num) (by norm_num),
   (overlap_scenario_amended adC bdC).2.2.2 0 (by norm_num)⟩

/-- The single tile of the degenerate-clip scenario: 1-by-1 at origin
`(lon 1, lat 1)`, pixel scale 1, so its bounding box is `(1, 0, 2, 1)`. -/
def tile4 : Tile :=
  { theight := 1, twidth := 1, tdata := fun _ _ => some 0
    origin_lon := 1, origin_lat := 1, scale_lon := 1, scale_lat := 1 }

/-- Allocation of the target grid succeeds: `np.full((height, width))`
raises only for a negative dimension.  A zero dimension allocates an
empty array, and `main` of `build_heightmap.py` then writes it to disk
unconditionally — the script has no empty-clip check. -/
def mosaicAllocOk (W H : ℤ) : Prop := 0 ≤ W ∧ 0 ≤ H

/-- C4 fails on the code: clipping a single tile with bounding box
`(1, 0, 2, 1)` to a 69-mile radius around `(lat 0, lon 0)` (so
`dlat = dlon = 1`) gives the degenerate clip box `(1, 0, 1, 1)` of zero
width.  The computed grid is 0-by-1, the allocation succeeds, and the
pipeline proceeds to write the empty grid: no `EmptyClipRegionError`
(or any other error) exists anywhere in `build_heightmap.py`. -/
theorem degenerate_clip_silently_writes_empty_grid :
    clamp_bounds (compute_union_bounds tile4 []) 0 0 69 1 = ⟨1, 0, 1, 1⟩ ∧
    gridWidth ⟨1, 0, 1, 1⟩ tile4.scale_lon = 0 ∧
    gridHeight ⟨1, 0, 1, 1⟩ tile4.scale_lat = 1 ∧
    mosaicAllocOk (gridWidth ⟨1, 0, 1, 1⟩ tile4.scale_lon)
      (gridHeight ⟨1, 0, 1, 1⟩ tile4.scale_lat) := by
  have hclip : clamp_bounds (compute_union_bounds tile4 []) 0 0 69 1 =
      ⟨1, 0, 1, 1⟩ := by
    unfold clamp_bounds compute_union_bounds Tile.bounds tile4
    simp only [List.foldl_nil, GeoBounds.mk.injEq]
    refine ⟨?_, ?_, ?_, ?_⟩ <;> norm_num [min_def, max_def]
  have hw : gridWidth ⟨1, 0, 1, 1⟩ tile4.scale_lon = 0 := by
    show (⌈((1 : ℚ) - 1) / tile4.scale_lon⌉ : ℤ) = 0
    norm_num [tile4]
  have hh : gridHeight ⟨1, 0, 1, 1⟩ tile4.scale_lat = 1 := by
    show (⌈((1 : ℚ) - 0) / tile4.scale_lat⌉ : ℤ) = 1
    norm_num [tile4]
  refine ⟨hclip, hw, hh, ?_⟩
  rw [mosaicAllocOk, hw, hh]
  norm_num
